import Mathlib

/-!
Shallow embedding of the node-modbus-serial protocol engine.

Sources embedded here:
  * the ModbusRTU engine (checksum primitives `_CRC16` / `_LRC`, the
    response parsers `_readFC2` / `_readFC4` / `_readFC5` / `_readFC6` /
    `_readFC16`, the `open` data handler, and the request writers
    `writeFC1` .. `writeFC16`);
  * the buffered ASCII transport `asciibufferedport.js` (`calculateLrc`,
    `asciiEncodeRequestBuffer`, `asciiDecodeResponseBuffer`, `checkData`,
    the port data handler and `AsciiBufferedPort.prototype.write`).

Modelling conventions:
  * a Node `Buffer` is a `List Nat` of byte values; reading an index that
    is out of range yields the JS `undefined`, which every arithmetic
    use in this source coerces to 0, so out-of-range reads are modelled
    as a 0 default;
  * machine arithmetic is `Nat` with explicit `% 256` / `% 65536` where
    the source masks or writes bytes;
  * the source's `if( this._ascii === false ) { A } else \x7b\x7d B }`
    blocks in the write paths are read with the closing brace two lines
    below balancing the `else` block, i.e. as `if (...) { A } else { B }`
    (the lone extra brace of `\x7b\x7d` is the source's typo: without
    this reading the file does not parse at all);
  * `new Buffer(k)` (uninitialised storage) is modelled as `k` zero
    bytes; no claim below depends on the content of a byte the source
    never writes.
-/

namespace Modbus

/-- JS read of `buf[i]`: the byte when in range, else `undefined`-as-0. -/
def jsIndex (buf : List Nat) (i : Nat) : Nat := buf.getD i 0

/-- Node `buf.readUInt8(i)`. -/
def readUInt8 (buf : List Nat) (i : Nat) : Nat := jsIndex buf i

/-- Node `buf.readUInt16BE(i)`. -/
def readUInt16BE (buf : List Nat) (i : Nat) : Nat :=
  jsIndex buf i * 256 + jsIndex buf (i + 1)

/-- Node `buf.readUInt16LE(i)`. -/
def readUInt16LE (buf : List Nat) (i : Nat) : Nat :=
  jsIndex buf i + jsIndex buf (i + 1) * 256

/-- Node `buf.writeUInt8(v, i)`. -/
def writeUInt8 (buf : List Nat) (v i : Nat) : List Nat := buf.set i (v % 256)

/-- Node `buf.writeUInt16BE(v, i)`. -/
def writeUInt16BE (buf : List Nat) (v i : Nat) : List Nat :=
  (buf.set i (v / 256 % 256)).set (i + 1) (v % 256)

/-- Node `buf.writeUInt16LE(v, i)`. -/
def writeUInt16LE (buf : List Nat) (v i : Nat) : List Nat :=
  (buf.set i (v % 256)).set (i + 1) (v / 256 % 256)

/-! ### Checksum primitives (`_CRC16`, `_LRC`) -/

/-- One inner iteration of `_CRC16`: `tmp = crc & 1; crc >>= 1; if (tmp) crc ^= 0xA001`. -/
def crcBitStep (crc : Nat) : Nat :=
  if crc % 2 = 1 then (crc / 2) ^^^ 0xA001 else crc / 2

/-- The inner `for (j = 0; j < 8; j++)` loop of `_CRC16`. -/
def crcShift : Nat → Nat → Nat
  | crc, 0 => crc
  | crc, j + 1 => crcShift (crcBitStep crc) j

/-- The pure CRC16 computation of `_CRC16` over `buf[0..length)`. -/
def crc16core (bytes : List Nat) : Nat :=
  bytes.foldl (fun crc b => crcShift (crc ^^^ b) 8) 0xFFFF

/-- `_CRC16(buf, length)`: computes the CRC over `buf[0..length)`, writes it
little-endian at positions `length` and `length+1`, and returns the CRC. -/
def CRC16 (buf : List Nat) (length : Nat) : List Nat × Nat :=
  let crc := crc16core (buf.take length)
  (writeUInt16LE buf crc length, crc)

/-- The byte sum `lrc += buf[i] & 0xFF` of `_LRC` over a byte range. -/
def lrcSum (bytes : List Nat) : Nat :=
  bytes.foldl (fun s b => s + (b &&& 255)) 0

/-- The pure LRC value of `_LRC`: `((sum ^ 0xFF) + 1) & 0xFF`. -/
def lrcCore (bytes : List Nat) : Nat :=
  ((lrcSum bytes ^^^ 255) + 1) &&& 255

/-- `_LRC(buf, length)`: computes the LRC over `buf[0..length)`, writes it
at position `length`, and returns the LRC. -/
def LRC (buf : List Nat) (length : Nat) : List Nat × Nat :=
  let l := lrcCore (buf.take length)
  (writeUInt8 buf l length, l)

/-! ### Response parsers (`_readFC2` .. `_readFC16`) -/

/-- Decoded results delivered to the continuation by the `_readFC*` parsers. -/
inductive DecodedResult where
  | bits (data : List Bool) (buffer : List Nat)
  | regs (data : List Nat) (buffer : List Nat)
  | coil (address : Nat) (state : Bool)
  | register (address : Nat) (value : Nat)
  | multi (address : Nat) (length : Nat)
deriving DecidableEq, Repr

/-- The inner `for (j = 0; j < 8; j++)` loop of `_readFC2`: push
`(reg & 1) == 1` then `reg >>= 1`, eight times. -/
def bitsFromByte : Nat → Nat → List Bool
  | _, 0 => []
  | reg, j + 1 => decide (reg % 2 = 1) :: bitsFromByte (reg / 2) j

/-- The eight booleans `_readFC2` extracts from one payload byte. -/
def bitsOfByte (reg : Nat) : List Bool := bitsFromByte reg 8

/-- The boolean list built by `_readFC2`: `length = data.readUInt8(2)`
bytes starting at offset 3, each unpacked LSB first. -/
def readFC2bits (data : List Nat) : List Bool :=
  ((List.range (readUInt8 data 2)).map (fun i => bitsOfByte (jsIndex data (i + 3)))).flatten

/-- `_readFC2(data)`: booleans plus the raw payload slice `data.slice(3, 3 + length)`. -/
def readFC2res (data : List Nat) : DecodedResult :=
  .bits (readFC2bits data) ((data.drop 3).take (readUInt8 data 2))

/-- The register list built by `_readFC4`: `for (i = 0; i < length; i += 2)`
reads `data.readUInt16BE(i + 3)`, i.e. `ceil(length / 2)` big-endian pairs. -/
def readFC4regs (data : List Nat) : List Nat :=
  (List.range ((readUInt8 data 2 + 1) / 2)).map (fun k => readUInt16BE data (2 * k + 3))

/-- `_readFC4(data)`: registers plus the raw payload slice. -/
def readFC4res (data : List Nat) : DecodedResult :=
  .regs (readFC4regs data) ((data.drop 3).take (readUInt8 data 2))

/-- `_readFC5(data)`: echoed address and `state == 0xff00`. -/
def readFC5res (data : List Nat) : DecodedResult :=
  .coil (readUInt16BE data 2) (decide (readUInt16BE data 4 = 0xff00))

/-- `_readFC6(data)`: echoed address and value. -/
def readFC6res (data : List Nat) : DecodedResult :=
  .register (readUInt16BE data 2) (readUInt16BE data 4)

/-- `_readFC16(data)`: echoed address and register count. -/
def readFC16res (data : List Nat) : DecodedResult :=
  .multi (readUInt16BE data 2) (readUInt16BE data 4)

/-! ### The ModbusRTU engine state and data handler -/

/-- The mutable fields of a `ModbusRTU` instance that the protocol paths
touch.  `ascii` is the `_ascii` field: `none` models the JS `undefined`
of a field that was never assigned, `some b` a field holding `b`.
`hasNext` records whether `_next` holds a continuation. -/
structure ModbusState where
  ascii : Option Bool
  nextAddress : Option Nat
  nextCode : Option Nat
  nextLength : Nat
  hasNext : Bool
deriving DecidableEq, Repr

/-- The `ModbusRTU` constructor: `_ascii` is never initialised. -/
def initialState : ModbusState :=
  { ascii := none, nextAddress := none, nextCode := none, nextLength := 0, hasNext := false }

/-- JS `this._ascii === false` (strict equality, no coercion). -/
def strictEqFalse (a : Option Bool) : Bool := a == some false

/-- JS `this._ascii === true`. -/
def strictEqTrue (a : Option Bool) : Bool := a == some true

/-- What the data handler does with the pending continuation. -/
inductive Outcome where
  | silent
  | errDataLength
  | errUnexpectedData
  | errCrc
  | errLrc
  | ok (r : DecodedResult)
deriving DecidableEq, Repr

/-- The dispatch on the function code at the end of the data handler.
When `next` is null (`hn = false`) the parsers call nothing. -/
def dispatch (code : Nat) (data : List Nat) (hn : Bool) : Outcome :=
  if ¬ hn then .silent
  else if code = 2 ∨ code = 1 then .ok (readFC2res data)
  else if code = 4 ∨ code = 3 then .ok (readFC4res data)
  else if code = 5 then .ok (readFC5res data)
  else if code = 6 then .ok (readFC6res data)
  else if code = 16 then .ok (readFC16res data)
  else .silent

/-- The `data` event handler registered by `ModbusRTU.prototype.open`.
Returns the state after the event, the continuation outcome, and the
(data) buffer as the handler leaves it — `_CRC16` / `_LRC` write the
recomputed checksum back into the received buffer when invoked. -/
def onData (st : ModbusState) (data : List Nat) : ModbusState × Outcome × List Nat :=
  let length := st.nextLength
  let hn := st.hasNext
  if data.length ≠ length then
    (st, (if hn then .errDataLength else .silent), data)
  else
    let address := readUInt8 data 0
    let code := readUInt8 data 1
    if some address ≠ st.nextAddress ∨ some code ≠ st.nextCode then
      (st, (if hn then .errUnexpectedData else .silent), data)
    else
      let st1 := { st with nextAddress := none, nextCode := none, hasNext := false }
      if strictEqFalse st.ascii then
        let crcIn := readUInt16LE data (length - 2)
        let p := CRC16 data (length - 2)
        if crcIn ≠ p.2 then (st1, (if hn then .errCrc else .silent), p.1)
        else (st1, dispatch code p.1 hn, p.1)
      else
        let lrcIn := readUInt8 data (data.length - 1)
        let p := LRC data (data.length - 1)
        if lrcIn ≠ p.2 then (st1, (if hn then .errLrc else .silent), p.1)
        else (st1, dispatch code p.1 hn, p.1)

/-! ### Request writers (`writeFC1` .. `writeFC16`) -/

/-- `ModbusRTU.prototype.writeFC2` (also the body of `writeFC1`, which
passes code 1).  Returns the updated state and the frame handed to
`this._port.write`.  `hn` is whether the caller passed a continuation. -/
def writeFC2 (st : ModbusState) (address dataAddress length : Nat) (hn : Bool)
    (code0 : Nat) : ModbusState × List Nat :=
  let code := if code0 = 0 then 2 else code0
  let nextLength :=
    if strictEqFalse st.ascii then 3 + ((length - 1) / 8 + 1) + 2
    else 3 + ((length - 1) / 8 + 1) + 1
  let codeLength := 6
  let buf0 := List.replicate (if strictEqFalse st.ascii then codeLength + 2 else codeLength + 1) 0
  let buf1 := writeUInt8 buf0 address 0
  let buf2 := writeUInt8 buf1 code 1
  let buf3 := writeUInt16BE buf2 dataAddress 2
  let buf4 := writeUInt16BE buf3 length 4
  let frame := if strictEqTrue st.ascii then (CRC16 buf4 codeLength).1 else (LRC buf4 codeLength).1
  ({ st with nextAddress := some address, nextCode := some code,
             nextLength := nextLength, hasNext := hn }, frame)

/-- `ModbusRTU.prototype.writeFC1`: delegates to `writeFC2` with code 1. -/
def writeFC1 (st : ModbusState) (address dataAddress length : Nat) (hn : Bool) :
    ModbusState × List Nat :=
  writeFC2 st address dataAddress length hn 1

/-- `ModbusRTU.prototype.writeFC4` (also the body of `writeFC3`, code 3). -/
def writeFC4 (st : ModbusState) (address dataAddress length : Nat) (hn : Bool)
    (code0 : Nat) : ModbusState × List Nat :=
  let code := if code0 = 0 then 4 else code0
  let nextLength :=
    if strictEqFalse st.ascii then 3 + 2 * length + 2 else 3 + 2 * length + 1
  let codeLength := 6
  let buf0 := List.replicate (if strictEqFalse st.ascii then codeLength + 2 else codeLength + 1) 0
  let buf1 := writeUInt8 buf0 address 0
  let buf2 := writeUInt8 buf1 code 1
  let buf3 := writeUInt16BE buf2 dataAddress 2
  let buf4 := writeUInt16BE buf3 length 4
  let frame := if strictEqTrue st.ascii then (CRC16 buf4 codeLength).1 else (LRC buf4 codeLength).1
  ({ st with nextAddress := some address, nextCode := some code,
             nextLength := nextLength, hasNext := hn }, frame)

/-- `ModbusRTU.prototype.writeFC3`: delegates to `writeFC4` with code 3. -/
def writeFC3 (st : ModbusState) (address dataAddress length : Nat) (hn : Bool) :
    ModbusState × List Nat :=
  writeFC4 st address dataAddress length hn 3

/-- `ModbusRTU.prototype.writeFC5`. -/
def writeFC5 (st : ModbusState) (address dataAddress : Nat) (state : Bool) (hn : Bool) :
    ModbusState × List Nat :=
  let code := 5
  let nextLength := if strictEqFalse st.ascii then 8 else 7
  let codeLength := 6
  let buf0 := List.replicate (if strictEqFalse st.ascii then codeLength + 2 else codeLength + 1) 0
  let buf1 := writeUInt8 buf0 address 0
  let buf2 := writeUInt8 buf1 code 1
  let buf3 := writeUInt16BE buf2 dataAddress 2
  let buf4 := if state then writeUInt16BE buf3 0xff00 4 else writeUInt16BE buf3 0x0000 4
  let frame := if strictEqTrue st.ascii then (CRC16 buf4 codeLength).1 else (LRC buf4 codeLength).1
  ({ st with nextAddress := some address, nextCode := some code,
             nextLength := nextLength, hasNext := hn }, frame)

/-- `ModbusRTU.prototype.writeFC6`. -/
def writeFC6 (st : ModbusState) (address dataAddress value : Nat) (hn : Bool) :
    ModbusState × List Nat :=
  let code := 6
  let nextLength := if strictEqFalse st.ascii then 8 else 7
  let codeLength := 6
  let buf0 := List.replicate (if strictEqFalse st.ascii then codeLength + 2 else codeLength + 1) 0
  let buf1 := writeUInt8 buf0 address 0
  let buf2 := writeUInt8 buf1 code 1
  let buf3 := writeUInt16BE buf2 dataAddress 2
  let buf4 := writeUInt16BE buf3 value 4
  let frame := if strictEqTrue st.ascii then (CRC16 buf4 codeLength).1 else (LRC buf4 codeLength).1
  ({ st with nextAddress := some address, nextCode := some code,
             nextLength := nextLength, hasNext := hn }, frame)

/-- The register-write loop of `writeFC16`:
`for (i ...) buf.writeUInt16BE(array[i], 7 + 2 * i)`. -/
def writeRegsFrom : List Nat → List Nat → Nat → List Nat
  | buf, [], _ => buf
  | buf, v :: rest, pos => writeRegsFrom (writeUInt16BE buf v pos) rest (pos + 2)

/-- `ModbusRTU.prototype.writeFC16`. -/
def writeFC16 (st : ModbusState) (address dataAddress : Nat) (array : List Nat) (hn : Bool) :
    ModbusState × List Nat :=
  let code := 16
  let nextLength := if strictEqFalse st.ascii then 8 else 7
  let codeLength := 7 + 2 * array.length
  let buf0 := List.replicate (if strictEqFalse st.ascii then codeLength + 2 else codeLength + 1) 0
  let buf1 := writeUInt8 buf0 address 0
  let buf2 := writeUInt8 buf1 code 1
  let buf3 := writeUInt16BE buf2 dataAddress 2
  let buf4 := writeUInt16BE buf3 array.length 4
  let buf5 := writeUInt8 buf4 (array.length * 2) 6
  let buf6 := writeRegsFrom buf5 array 7
  let frame := if strictEqTrue st.ascii then (CRC16 buf6 codeLength).1 else (LRC buf6 codeLength).1
  ({ st with nextAddress := some address, nextCode := some code,
             nextLength := nextLength, hasNext := hn }, frame)

/-! ### The buffered ASCII transport (`asciibufferedport.js`) -/

/-- `calculateLrc(buf)`: LRC over all bytes but the last one. -/
def calculateLrc (buf : List Nat) : Nat :=
  lrcCore (buf.take (buf.length - 1))

/-- Uppercase hex digit character code, as produced by
`buf.toString('hex').toUpperCase()` for a digit value below 16. -/
def hexDigitChar (d : Nat) : Nat := if d < 10 then 48 + d else 55 + d

/-- The character codes of `buf.toString('hex', 0, buf.length).toUpperCase()`:
two hex digits per byte, high digit first. -/
def hexUpper : List Nat → List Nat
  | [] => []
  | b :: t => hexDigitChar (b / 16) :: hexDigitChar (b % 16) :: hexUpper t

/-- Node `buf.write(src, offset)` for a byte string `src`: copy `src` over
`buf` starting at `offset`, truncated at the end of `buf`; `buf` keeps its
length. -/
def bufWrite (buf : List Nat) (src : List Nat) (offset : Nat) : List Nat :=
  buf.take offset ++ src.take (buf.length - offset) ++ buf.drop (offset + src.length)

/-- `asciiEncodeRequestBuffer(buf)`: a fresh buffer of size `2 * len + 3`
receives `':'` at 0, the uppercase hex payload at 1, `'\r'` and `'\n'` at
the last two positions. -/
def asciiEncodeRequestBuffer (buf : List Nat) : List Nat :=
  let bufAscii := List.replicate (buf.length * 2 + 3) 0
  let b1 := bufWrite bufAscii [58] 0
  let b2 := bufWrite b1 (hexUpper buf) 1
  let b3 := bufWrite b2 [13] (b2.length - 2)
  bufWrite b3 [10] (b3.length - 1)

/-- Value of one hex character code as decoded by `Buffer.write(.., 'hex')`;
0 for a character that is not a hex digit (a non-hex pair makes the write
a no-op on a zero-filled model buffer). -/
def hexCharVal (c : Nat) : Nat :=
  if 48 ≤ c ∧ c ≤ 57 then c - 48
  else if 97 ≤ c ∧ c ≤ 102 then c - 87
  else if 65 ≤ c ∧ c ≤ 70 then c - 55
  else 0

/-- Pairwise hex decoding of a character-code list. -/
def decodePairs : List Nat → List Nat
  | c1 :: c2 :: t => (hexCharVal c1 * 16 + hexCharVal c2) :: decodePairs t
  | _ => []

/-- `asciiDecodeResponseBuffer(bufAscii)`: drop the leading delimiter and
the two trailing delimiter bytes, hex-decode `(len - 3) / 2` pairs taken
from positions `2 i + 1`, `2 i + 2`. -/
def asciiDecodeResponseBuffer (bufAscii : List Nat) : List Nat :=
  decodePairs ((bufAscii.drop 1).take (2 * ((bufAscii.length - 3) / 2)))

/-- The expectation fields and rolling buffer of an `AsciiBufferedPort`. -/
structure AsciiPortState where
  buffer : List Nat
  id : Nat
  cmd : Nat
  len : Nat
deriving DecidableEq, Repr

/-- `checkData(modbus, buf)`: unit id, command and trailing LRC of a decoded
candidate match the recorded expectations. -/
def checkData (st : AsciiPortState) (buf : List Nat) : Bool :=
  jsIndex buf 0 == st.id && jsIndex buf 1 == st.cmd &&
    readUInt8 buf (buf.length - 1) == calculateLrc buf

/-- The scan loop of the port's data handler.  `i` is the loop variable,
`bound = bufferLength - length + 1` its exclusive limit; on a validated
window at `i` the source sets `i = i + length` before the loop's `i++`.
`fuel` only bounds the recursion: every call site passes `fuel = bound`,
and since `i` grows by at least 1 per step while `fuel + i ≥ bound` is
preserved, the fuel case below is exactly the loop's exit condition. -/
def scanFrom (st : AsciiPortState) (buffer : List Nat) (bound : Nat) :
    Nat → Nat → Nat × List (List Nat)
  | i, 0 => (i, [])
  | i, fuel + 1 =>
    if i < bound then
      let w := (buffer.drop i).take st.len
      if w.length = st.len ∧ checkData st (asciiDecodeResponseBuffer w) then
        let r := scanFrom st buffer bound (i + st.len + 1) fuel
        (r.1, asciiDecodeResponseBuffer w :: r.2)
      else scanFrom st buffer bound (i + 1) fuel
    else (i, [])

/-- The `data` event handler of `AsciiBufferedPort`: append the chunk,
refuse to scan below 6 buffered or expected bytes, scan, and cut the
consumed bytes off the front of the buffer when `i` is nonzero.  Returns
the new state and the decoded frames emitted (in order). -/
def asciiOnData (st : AsciiPortState) (chunk : List Nat) : AsciiPortState × List (List Nat) :=
  let buffer := st.buffer ++ chunk
  let bufferLength := buffer.length
  if bufferLength < 6 ∨ st.len < 6 then ({ st with buffer := buffer }, [])
  else
    let bound := bufferLength + 1 - st.len
    let r := scanFrom st buffer bound 0 bound
    (if r.1 ≠ 0 then { st with buffer := buffer.drop r.1 } else { st with buffer := buffer }, r.2)

/-- `AsciiBufferedPort.prototype.write(data)`: record the unit id, the
command and the expected ASCII answer length, then send the
ASCII-encoded frame.  Returns the new state and the wire bytes (empty
when the undersized-request guard returns early). -/
def asciiPortWrite (st : AsciiPortState) (data : List Nat) : AsciiPortState × List Nat :=
  if data.length < 5 then (st, [])
  else
    let id := jsIndex data 0
    let cmd := jsIndex data 1
    let len :=
      if cmd = 1 ∨ cmd = 2 then
        let length := readUInt16BE data 4
        (3 + ((length - 1) / 8 + 1) + 2) * 2 + 1
      else if cmd = 3 ∨ cmd = 4 then
        let length := readUInt16BE data 4
        (3 + 2 * length + 2) * 2 + 1
      else if cmd = 5 ∨ cmd = 6 ∨ cmd = 16 then (6 + 2) * 2 + 1
      else 0
    ({ st with id := id, cmd := cmd, len := len }, asciiEncodeRequestBuffer data)

/-! ### Derived descriptions used by theorem statements -/

/-- The 6-byte request core every fixed-size write path assembles:
unit address, function code, and two big-endian 16-bit parameters. -/
def requestCore (a c p1 p2 : Nat) : List Nat :=
  [a % 256, c % 256, p1 / 256 % 256, p1 % 256, p2 / 256 % 256, p2 % 256]

/-- A complete 13-byte ASCII wire frame: `':' "010101 00 FD" '\r' '\n'`,
which decodes to `[1, 1, 1, 0, 253]` — unit 1, function 1, payload
`[1, 0]`, and 253 is the matching LRC of `[1, 1, 1, 0]`. -/
def asciiWireFrame : List Nat :=
  [58, 48, 49, 48, 49, 48, 49, 48, 48, 70, 68, 13, 10]

/-! ### Shared helper lemmas -/

theorem getD_set_self (l : List Nat) (i v d : Nat) (h : i < l.length) :
    (l.set i v).getD i d = v := by
  simp [List.getD_eq_getElem?_getD, List.getElem?_set_self, h]

theorem getD_set_ne (l : List Nat) (i j v d : Nat) (h : i ≠ j) :
    (l.set i v).getD j d = l.getD j d := by
  simp [List.getD_eq_getElem?_getD, List.getElem?_set_ne h]

theorem take_set_of_le (l : List Nat) (n i v : Nat) (h : n ≤ i) :
    (l.set i v).take n = l.take n := by
  apply List.ext_getElem?
  intro j
  by_cases hj : j < n
  · simp only [List.getElem?_take, hj, if_pos]
    rw [List.getElem?_set_ne (by omega)]
  · simp only [List.getElem?_take, hj, if_neg, if_false]

theorem set_getD_self (l : List Nat) (i d : Nat) (h : i < l.length) :
    l.set i (l.getD i d) = l := by
  apply List.ext_getElem?
  intro j
  by_cases hj : j = i
  · subst hj
    simp [List.getElem?_set_self, h, List.getD_eq_getElem?_getD, List.getElem?_eq_getElem h]
  · simp [List.getElem?_set_ne (Ne.symm hj)]

theorem length_writeRegsFrom (arr : List Nat) :
    ∀ buf pos, (writeRegsFrom buf arr pos).length = buf.length := by
  induction arr with
  | nil => intro buf pos; rfl
  | cons v rest ih =>
    intro buf pos
    rw [writeRegsFrom, ih]
    simp [writeUInt16BE]

theorem and255_eq_mod (x : Nat) : x &&& 255 = x % 256 := by
  have h := Nat.and_pow_two_sub_one_eq_mod x 8
  norm_num at h
  exact h

theorem xor255_mod (s : Nat) : (s ^^^ 255) % 256 = (s % 256) ^^^ 255 := by
  have h2 : (256 : Nat) = 2 ^ 8 := by norm_num
  have h255 : ∀ i, Nat.testBit 255 i = decide (i < 8) := by
    intro i
    have h : (255 : Nat) = 2 ^ 8 - 1 := by norm_num
    rw [h, Nat.testBit_two_pow_sub_one]
  rw [h2]
  apply Nat.eq_of_testBit_eq
  intro i
  simp only [Nat.testBit_mod_two_pow, Nat.testBit_xor, h255]
  by_cases h : i < 8 <;> simp [h]

set_option maxRecDepth 4000 in
theorem xor255_of_lt (t : Nat) (h : t < 256) : t ^^^ 255 = 255 - t := by
  revert h
  revert t
  decide

theorem lrcCore_lt (bytes : List Nat) : lrcCore bytes < 256 := by
  rw [lrcCore, and255_eq_mod]
  exact Nat.mod_lt _ (by norm_num)

theorem lrcCore_eq_mod (bytes : List Nat) :
    lrcCore bytes = (((lrcSum bytes % 256) ^^^ 255) + 1) % 256 := by
  rw [lrcCore, and255_eq_mod, Nat.add_mod, xor255_mod]

theorem hexUpper_length (l : List Nat) : (hexUpper l).length = 2 * l.length := by
  induction l with
  | nil => rfl
  | cons b t ih => rw [hexUpper]; simp [ih]; omega

theorem hexCharVal_hexDigitChar (d : Nat) (h : d < 16) :
    hexCharVal (hexDigitChar d) = d := by
  revert h
  revert d
  decide

theorem decodePairs_hexUpper (l : List Nat) (hb : ∀ b ∈ l, b < 256) :
    decodePairs (hexUpper l) = l := by
  induction l with
  | nil => rfl
  | cons b t ih =>
    have hblt : b < 256 := hb b (by simp)
    rw [hexUpper, decodePairs, ih (fun x hx => hb x (by simp [hx]))]
    rw [hexCharVal_hexDigitChar _ (by omega), hexCharVal_hexDigitChar _ (by omega)]
    congr 1
    omega

theorem bitsOfByte_eq (b : Nat) :
    bitsOfByte b = (List.range 8).map (fun j => decide (b / 2 ^ j % 2 = 1)) := by
  have h : List.range 8 = [0, 1, 2, 3, 4, 5, 6, 7] := rfl
  rw [h]
  simp only [List.map_cons, List.map_nil, bitsOfByte, bitsFromByte,
    Nat.div_div_eq_div_mul]
  norm_num

theorem flatten_bits_range (f : Nat → Nat) (L : Nat) :
    ((List.range L).map (fun i => bitsOfByte (f i))).flatten
      = (List.range (8 * L)).map (fun k => decide (f (k / 8) / 2 ^ (k % 8) % 2 = 1)) := by
  induction L with
  | zero => rfl
  | succ L ih =>
    rw [List.range_succ, List.map_append, List.flatten_append, ih]
    have h8 : 8 * (L + 1) = 8 * L + 8 := by ring
    rw [h8, List.range_add, List.map_append]
    congr 1
    simp only [List.map_cons, List.map_nil, List.flatten_cons, List.flatten_nil,
      List.append_nil, List.map_map]
    rw [bitsOfByte_eq]
    apply List.map_congr_left
    intro j hj
    have hj8 : j < 8 := List.mem_range.mp hj
    have hdiv : (8 * L + j) / 8 = L := by omega
    have hmod : (8 * L + j) % 8 = j := by omega
    simp [Function.comp, hdiv, hmod]

/-! ### Claim theorems -/

set_option maxRecDepth 100000 in
/-- C1.  In binary mode (`_ascii === false`) the encode path of `writeFC2`
appends the single LRC byte, not a little-endian CRC16: the checksum step
runs `_CRC16` only when `_ascii === true` and `_LRC` otherwise, the exact
swap of the claimed mode split.  The frame for unit 1, address 0, count 1
is the 6-byte core plus LRC 252 plus one never-written byte, while the
CRC16 of that core is 51897 = 0xCAB9, whose little-endian bytes 185, 202
appear nowhere in the frame. -/
theorem writeFC2_binary_mode_appends_lrc :
    (writeFC2 { initialState with ascii := some false } 1 0 1 true 2).2
        = requestCore 1 2 0 1 ++ [lrcCore (requestCore 1 2 0 1), 0]
    ∧ lrcCore (requestCore 1 2 0 1) = 252
    ∧ crc16core (requestCore 1 2 0 1) = 51897
    ∧ (writeFC2 { initialState with ascii := some false } 1 0 1 true 2).2
        ≠ requestCore 1 2 0 1 ++ [51897 % 256, 51897 / 256] := by
  refine ⟨by decide, by decide, by decide, by decide⟩

/-- C2 (counterexample).  A candidate whose byte count differs from the
recorded expected length makes the handler signal the length error, yet
the outstanding-transaction state is returned untouched — `_nextAddress`
is still `some 1`, not cleared. -/
theorem onData_mismatch_counterexample :
    onData ⟨none, some 1, some 3, 9, true⟩ [1]
        = (⟨none, some 1, some 3, 9, true⟩, Outcome.errDataLength, [1])
    ∧ (⟨none, some 1, some 3, 9, true⟩ : ModbusState).nextAddress ≠ none := by
  refine ⟨by decide, by decide⟩

/-- C2 (amended).  On a length mismatch, and likewise on an
address/function-code mismatch, the handler signals the corresponding
error and returns with the outstanding-transaction state unchanged; the
state (expected address, expected code, continuation) is cleared exactly
when a candidate passes both the length and the identity check, whether
or not the checksum then validates. -/
theorem onData_mismatch_keeps_state (st : ModbusState) (data : List Nat) :
    (data.length ≠ st.nextLength →
      onData st data = (st, (if st.hasNext then Outcome.errDataLength else Outcome.silent), data))
    ∧ (data.length = st.nextLength →
        (some (readUInt8 data 0) ≠ st.nextAddress ∨ some (readUInt8 data 1) ≠ st.nextCode) →
        onData st data
          = (st, (if st.hasNext then Outcome.errUnexpectedData else Outcome.silent), data))
    ∧ (data.length = st.nextLength →
        some (readUInt8 data 0) = st.nextAddress →
        some (readUInt8 data 1) = st.nextCode →
        (onData st data).1
          = { st with nextAddress := none, nextCode := none, hasNext := false }) := by
  refine ⟨?_, ?_, ?_⟩
  · intro h
    simp [onData, h]
  · intro h hm
    simp [onData, h, hm]
  · intro h ha hc
    have hcond : ¬ (some (readUInt8 data 0) ≠ st.nextAddress
        ∨ some (readUInt8 data 1) ≠ st.nextCode) := by
      push_neg
      exact ⟨ha, hc⟩
    simp only [onData]
    rw [if_neg (show ¬ data.length ≠ st.nextLength from by omega), if_neg hcond]
    split_ifs <;> rfl

/-- C2 (witness for the amended theorem): the length-mismatch clause at a
concrete state and candidate. -/
theorem onData_mismatch_keeps_state_witness :
    onData ⟨none, some 1, some 3, 9, true⟩ [1]
      = (⟨none, some 1, some 3, 9, true⟩, Outcome.errDataLength, [1]) := by
  have h := (onData_mismatch_keeps_state ⟨none, some 1, some 3, 9, true⟩ [1]).1 (by decide)
  simpa using h

/-- C3 (counterexample).  `[1, 1, 1, 2, 208, 73]` is the validated binary
response to a read of n = 2 coils (unit 1, FC 1, payload length 1,
payload byte 2, correct CRC16 0x49D0 little-endian), and `_readFC2`
decodes 8 booleans from it, not 2. -/
theorem readFC2_bit_count_counterexample :
    (readFC2bits [1, 1, 1, 2, 208, 73]).length = 8
    ∧ crc16core [1, 1, 1, 2] = 256 * 73 + 208
    ∧ (8 : Nat) ≠ 2 := by
  refine ⟨by decide, by decide, by decide⟩

/-- C3 (amended).  `_readFC2` decodes exactly 8 booleans per payload byte
— `8 × data[2]` in total, ascending bit order, least-significant bit of
each payload byte first — together with the raw payload slice
`data.slice(3, 3 + data[2])`; the requested bit count is not available to
the decoder and no truncation to it happens. -/
theorem readFC2_decodes_eight_bits_per_byte (data : List Nat) :
    readFC2res data
      = .bits ((List.range (8 * readUInt8 data 2)).map
            (fun k => decide (jsIndex data (k / 8 + 3) / 2 ^ (k % 8) % 2 = 1)))
          ((data.drop 3).take (readUInt8 data 2))
    ∧ (readFC2bits data).length = 8 * readUInt8 data 2 := by
  have hb := flatten_bits_range (fun i => jsIndex data (i + 3)) (readUInt8 data 2)
  constructor
  · rw [readFC2res, readFC2bits, hb]
  · rw [readFC2bits, hb]
    simp

/-- C4 (counterexample).  For an FC 1 request of n = 1 bit, the ASCII
port records expected length 13, while the claimed ASCII formula
`2 × (3 + ceil((n − 1) / 8 + 1)) + 3` yields 11. -/
theorem expected_length_fc12_counterexample :
    (asciiPortWrite ⟨[], 0, 0, 0⟩ [1, 1, 0, 0, 0, 1, 253]).1.len = 13
    ∧ 2 * (3 + ((1 - 1) / 8 + 1)) + 3 = 11
    ∧ (13 : Nat) ≠ 11 := by
  refine ⟨by decide, by decide, by decide⟩

/-- C4 (amended).  For an FC 1/2 request of n ≥ 1 bits, the engine
records `3 + ceil(n/8) + 2` in binary mode, and the ASCII port records
`2 × (3 + ceil((n − 1)/8 + 1) + 2) + 1` — the full binary frame length
including its two checksum bytes doubled, plus one — not
`2 × (3 + ceil((n − 1)/8 + 1)) + 3`. -/
theorem expected_length_fc12 (st : ModbusState) (pst : AsciiPortState)
    (a d n c : Nat) (hn : Bool) (data : List Nat) (h1 : 1 ≤ n) :
    (strictEqFalse st.ascii = true →
      (writeFC2 st a d n hn c).1.nextLength = 3 + (n + 7) / 8 + 2)
    ∧ (5 ≤ data.length → (jsIndex data 1 = 1 ∨ jsIndex data 1 = 2) →
        readUInt16BE data 4 = n →
        (asciiPortWrite pst data).1.len = 2 * (3 + (n + 7) / 8 + 2) + 1) := by
  constructor
  · intro hbin
    simp only [writeFC2, hbin, if_true]
    omega
  · intro h5 hcmd hn4
    simp only [asciiPortWrite, if_neg (by omega : ¬ data.length < 5), hcmd, if_true, hn4]
    omega

/-- C4 (witness): the amended formulas at n = 1 for a binary-mode engine
and for the ASCII port. -/
theorem expected_length_fc12_witness :
    (writeFC2 ⟨some false, none, none, 0, false⟩ 1 0 1 true 2).1.nextLength
        = 3 + (1 + 7) / 8 + 2
    ∧ (asciiPortWrite ⟨[], 0, 0, 0⟩ [1, 1, 0, 0, 0, 1, 253]).1.len
        = 2 * (3 + (1 + 7) / 8 + 2) + 1 := by
  have h := expected_length_fc12 ⟨some false, none, none, 0, false⟩ ⟨[], 0, 0, 0⟩
    1 0 1 2 true [1, 1, 0, 0, 0, 1, 253] (by decide)
  exact ⟨h.1 (by decide), h.2 (by decide) (by decide) (by decide)⟩

/-- C5 (counterexample).  The engine validates a received frame by calling
`_LRC` on it, which writes the recomputed LRC back into the frame: for a
candidate with stored LRC 7 (correct LRC 253), the handler signals the
checksum error but the received buffer leaves the handler with its last
byte overwritten — validation is not side-effect-free. -/
theorem checksum_validation_mutates_counterexample :
    (onData ⟨none, some 1, some 1, 5, true⟩ [1, 1, 1, 0, 7]).2.2 = [1, 1, 1, 0, 253]
    ∧ (onData ⟨none, some 1, some 1, 5, true⟩ [1, 1, 1, 0, 7]).2.1 = Outcome.errLrc
    ∧ [1, 1, 1, 0, 253] ≠ [1, 1, 1, 0, 7] := by
  refine ⟨by decide, by decide, by decide⟩

/-- C5 (amended).  `_CRC16(buf, length)` and `_LRC(buf, length)` leave
`buf[0..length)` unchanged and write only the checksum positions
(`length` and `length + 1`, resp. `length`); used for validation they
overwrite the trailing checksum byte(s) with the recomputed value, so a
received frame is left unchanged exactly when its stored checksum
already matches the recomputed one. -/
theorem checksum_write_discipline (buf : List Nat) (len : Nat) :
    (CRC16 buf len).1.take len = buf.take len
    ∧ (∀ i, i ≠ len → i ≠ len + 1 → (CRC16 buf len).1.getD i 0 = buf.getD i 0)
    ∧ (LRC buf len).1.take len = buf.take len
    ∧ (∀ i, i ≠ len → (LRC buf len).1.getD i 0 = buf.getD i 0)
    ∧ (0 < buf.length →
        readUInt8 buf (buf.length - 1) = lrcCore (buf.take (buf.length - 1)) →
        (LRC buf (buf.length - 1)).1 = buf) := by
  refine ⟨?_, ?_, ?_, ?_, ?_⟩
  · rw [CRC16, writeUInt16LE]
    rw [take_set_of_le _ _ _ _ (by omega), take_set_of_le _ _ _ _ (by omega)]
  · intro i h1 h2
    rw [CRC16, writeUInt16LE]
    rw [getD_set_ne _ _ _ _ _ (by omega), getD_set_ne _ _ _ _ _ (by omega)]
  · rw [LRC, writeUInt8]
    rw [take_set_of_le _ _ _ _ (by omega)]
  · intro i h1
    rw [LRC, writeUInt8]
    rw [getD_set_ne _ _ _ _ _ (by omega)]
  · intro hpos hmatch
    rw [LRC, writeUInt8]
    rw [Nat.mod_eq_of_lt (lrcCore_lt _), ← hmatch]
    exact set_getD_self buf _ 0 (by omega)

/-- C5 (witness): the write discipline at a concrete buffer, and the
no-op of validation on a frame whose stored LRC already matches. -/
theorem checksum_write_discipline_witness :
    (CRC16 [1, 2, 0, 0] 2).1.take 2 = [1, 2]
    ∧ (LRC [1, 1, 1, 0, 253] 4).1 = [1, 1, 1, 0, 253] := by
  refine ⟨((checksum_write_discipline [1, 2, 0, 0] 2).1).trans (by decide), ?_⟩
  exact (checksum_write_discipline [1, 1, 1, 0, 253] 4).2.2.2.2 (by decide) (by decide)

set_option maxRecDepth 100000 in
/-- C6.  Feeding the ASCII reassembler (expectations: unit 1, function 1,
length 13) one chunk holding the same valid 13-byte wire frame twice: the
scan consumes the first frame at offset 0, jumps the loop variable past
offset 13 (`i = i + length` followed by the loop's `i++`), emits only one
frame, and then cuts 14 bytes off the buffer — discarding offset 13,
which is the start of the second frame, a window that decodes and
validates against the current expectations. -/
theorem ascii_scan_discards_valid_frame_start :
    (asciiOnData ⟨[], 1, 1, 13⟩ (asciiWireFrame ++ asciiWireFrame)).2 = [[1, 1, 1, 0, 253]]
    ∧ (asciiOnData ⟨[], 1, 1, 13⟩ (asciiWireFrame ++ asciiWireFrame)).1.buffer
        = (asciiWireFrame ++ asciiWireFrame).drop 14
    ∧ ((asciiWireFrame ++ asciiWireFrame).drop 13).take 13 = asciiWireFrame
    ∧ checkData ⟨[], 1, 1, 13⟩ (asciiDecodeResponseBuffer asciiWireFrame) = true := by
  refine ⟨by decide, by decide, by decide, by decide⟩

/-- C7.  `_LRC` computes the two's complement of the 8-bit byte sum:
`((sum % 256) XOR 0xFF) + 1` masked to 8 bits; hence the sum of the
covered bytes plus the stored LRC is 0 modulo 256, and recomputing the
LRC over the same range of the written buffer reproduces the stored
byte. -/
theorem lrc_twos_complement (buf : List Nat) (len : Nat) :
    (LRC buf len).2 = (((lrcSum (buf.take len) % 256) ^^^ 255) + 1) % 256
    ∧ (lrcSum (buf.take len) + (LRC buf len).2) % 256 = 0
    ∧ (len < buf.length →
        (LRC (LRC buf len).1 len).2 = readUInt8 (LRC buf len).1 len) := by
  refine ⟨lrcCore_eq_mod _, ?_, ?_⟩
  · have hx := xor255_of_lt (lrcSum (buf.take len) % 256) (Nat.mod_lt _ (by norm_num))
    have he : (LRC buf len).2 = (((lrcSum (buf.take len) % 256) ^^^ 255) + 1) % 256 :=
      lrcCore_eq_mod _
    rw [he, hx]
    omega
  · intro hlt
    have htake : (LRC buf len).1.take len = buf.take len := by
      rw [LRC, writeUInt8]
      exact take_set_of_le _ _ _ _ (by omega)
    have hstored : readUInt8 (LRC buf len).1 len = lrcCore (buf.take len) := by
      rw [LRC, writeUInt8, readUInt8, jsIndex,
        Nat.mod_eq_of_lt (lrcCore_lt _)]
      exact getD_set_self _ _ _ _ (by omega)
    rw [hstored]
    show lrcCore ((LRC buf len).1.take len) = lrcCore (buf.take len)
    rw [htake]

/-- C7 (witness): the LRC algebra at the concrete buffer `[1, 2, 3, 0]`
with covered range `[1, 2, 3]`. -/
theorem lrc_twos_complement_witness :
    (LRC [1, 2, 3, 0] 3).2 = (((lrcSum ([1, 2, 3, 0].take 3) % 256) ^^^ 255) + 1) % 256
    ∧ (lrcSum ([1, 2, 3, 0].take 3) + (LRC [1, 2, 3, 0] 3).2) % 256 = 0
    ∧ (LRC (LRC [1, 2, 3, 0] 3).1 3).2 = readUInt8 (LRC [1, 2, 3, 0] 3).1 3 := by
  have h := lrc_twos_complement [1, 2, 3, 0] 3
  exact ⟨h.1, h.2.1, h.2.2 (by decide)⟩

theorem bufWrite_split (p rest src : List Nat) (hsrc : src.length ≤ rest.length) :
    bufWrite (p ++ rest) src p.length = p ++ src ++ rest.drop src.length := by
  rw [bufWrite, List.take_left, List.length_append]
  have h1 : p.length + rest.length - p.length = rest.length := by omega
  rw [h1, List.take_of_length_le hsrc]
  have h2 : (p ++ rest).drop (p.length + src.length) = rest.drop src.length := by
    simp [List.drop_append]
  rw [h2, List.append_assoc]

theorem asciiEncode_eq (buf : List Nat) :
    asciiEncodeRequestBuffer buf = 58 :: (hexUpper buf ++ [13, 10]) := by
  have hl := hexUpper_length buf
  have e1 : bufWrite (List.replicate (buf.length * 2 + 3) 0) [58] 0
      = [58] ++ List.replicate (buf.length * 2 + 2) 0 := by
    have h := bufWrite_split [] (List.replicate (buf.length * 2 + 3) 0) [58]
      (by simp)
    simp only [List.nil_append, List.length_nil] at h
    have hc : buf.length * 2 + 3 - ([58] : List Nat).length = buf.length * 2 + 2 := by
      simp only [List.length_singleton]
      omega
    rw [h, List.drop_replicate, hc]
  have e2 : bufWrite ([58] ++ List.replicate (buf.length * 2 + 2) 0) (hexUpper buf) 1
      = [58] ++ hexUpper buf ++ List.replicate 2 0 := by
    have h := bufWrite_split [58] (List.replicate (buf.length * 2 + 2) 0) (hexUpper buf)
      (by simp [hl]; omega)
    simp only [List.length_singleton] at h
    have hc : buf.length * 2 + 2 - (hexUpper buf).length = 2 := by omega
    rw [h, List.drop_replicate, hc]
  have hlen2 : ([58] ++ hexUpper buf ++ List.replicate 2 0).length = buf.length * 2 + 3 := by
    simp [hl]
    omega
  have e3 : bufWrite ([58] ++ hexUpper buf ++ List.replicate 2 0) [13] (buf.length * 2 + 1)
      = ([58] ++ hexUpper buf) ++ [13] ++ [0] := by
    have hrepl : List.replicate 2 (0 : Nat) = [0, 0] := rfl
    have hsplit : [58] ++ hexUpper buf ++ List.replicate 2 0
        = ([58] ++ hexUpper buf) ++ [0, 0] := by
      rw [hrepl, List.append_assoc]
    rw [hsplit]
    have hp : ([58] ++ hexUpper buf).length = buf.length * 2 + 1 := by
      simp [hl]; omega
    rw [← hp]
    have h := bufWrite_split ([58] ++ hexUpper buf) [0, 0] [13] (by simp)
    rw [h]
    rfl
  have e4 : bufWrite (([58] ++ hexUpper buf) ++ [13] ++ [0]) [10] (buf.length * 2 + 2)
      = (([58] ++ hexUpper buf) ++ [13]) ++ [10] := by
    have hsplit : ([58] ++ hexUpper buf) ++ [13] ++ [0]
        = (([58] ++ hexUpper buf) ++ [13]) ++ [0] := by
      rw [List.append_assoc]
    have hp : (([58] ++ hexUpper buf) ++ [13]).length = buf.length * 2 + 2 := by
      simp [hl]; omega
    rw [hsplit, ← hp]
    have h := bufWrite_split (([58] ++ hexUpper buf) ++ [13]) [0] [10] (by simp)
    rw [h]
    simp
  rw [asciiEncodeRequestBuffer]
  simp only [e1, e2]
  have hlen3 : ([58] ++ hexUpper buf ++ List.replicate 2 0).length - 2
      = buf.length * 2 + 1 := by
    rw [hlen2]
    omega
  rw [hlen3, e3]
  have hlen4 : (([58] ++ hexUpper buf) ++ [13] ++ [0]).length - 1 = buf.length * 2 + 2 := by
    simp [hl]
    omega
  rw [hlen4, e4]
  simp

/-- C8.  `asciiEncodeRequestBuffer` produces `':'` followed by the
uppercase hex of the frame followed by CR LF, with length exactly
`2 × len + 3`, and `asciiDecodeResponseBuffer` inverts it on every frame
of genuine bytes (each below 256). -/
theorem ascii_transcoder_roundtrip (frame : List Nat) (hb : ∀ b ∈ frame, b < 256) :
    asciiDecodeResponseBuffer (asciiEncodeRequestBuffer frame) = frame
    ∧ asciiEncodeRequestBuffer frame = 58 :: (hexUpper frame ++ [13, 10])
    ∧ (asciiEncodeRequestBuffer frame).length = 2 * frame.length + 3 := by
  have he := asciiEncode_eq frame
  have hl := hexUpper_length frame
  refine ⟨?_, he, ?_⟩
  · rw [he, asciiDecodeResponseBuffer]
    have hlen : (58 :: (hexUpper frame ++ [13, 10])).length = 2 * frame.length + 3 := by
      simp [hl]
    rw [hlen]
    have harith : (2 * frame.length + 3 - 3) / 2 = frame.length := by omega
    rw [harith]
    have hdrop : (58 :: (hexUpper frame ++ [13, 10])).drop 1 = hexUpper frame ++ [13, 10] := rfl
    rw [hdrop]
    have htake : (hexUpper frame ++ [13, 10]).take (2 * frame.length) = hexUpper frame :=
      List.take_left' hl
    rw [htake]
    exact decodePairs_hexUpper frame hb
  · rw [he]
    simp [hl]

/-- C8 (witness): the transcoder round trip on the concrete frame
`[1, 3, 0, 0, 0, 2, 250]`. -/
theorem ascii_transcoder_roundtrip_witness :
    asciiDecodeResponseBuffer (asciiEncodeRequestBuffer [1, 3, 0, 0, 0, 2, 250])
        = [1, 3, 0, 0, 0, 2, 250]
    ∧ (asciiEncodeRequestBuffer [1, 3, 0, 0, 0, 2, 250]).length
        = 2 * ([1, 3, 0, 0, 0, 2, 250] : List Nat).length + 3 := by
  have h := ascii_transcoder_roundtrip [1, 3, 0, 0, 0, 2, 250] (by decide)
  exact ⟨h.1, h.2.2⟩

set_option maxRecDepth 100000 in
/-- C9.  The FC 3 scenario on the code: in binary mode the encoded
request is the core `01 03 00 00 00 02` followed by the single LRC byte
250 and one never-written byte — not the CRC16 3012 = 0x0BC4 (bytes 196,
11 little-endian) the claim requires; decoding the validated response
`01 03 04 00 0A 00 0B` plus its correct little-endian CRC16 (bytes 155,
246) does deliver the register values `[10, 11]`. -/
theorem fc3_scenario_eval :
    (writeFC3 { initialState with ascii := some false } 1 0 2 true).2
        = requestCore 1 3 0 2 ++ [lrcCore (requestCore 1 3 0 2), 0]
    ∧ lrcCore (requestCore 1 3 0 2) = 250
    ∧ crc16core (requestCore 1 3 0 2) = 3012
    ∧ (writeFC3 { initialState with ascii := some false } 1 0 2 true).2
        ≠ requestCore 1 3 0 2 ++ [3012 % 256, 3012 / 256]
    ∧ readUInt16LE [1, 3, 4, 0, 10, 0, 11, 155, 246] 7 = crc16core [1, 3, 4, 0, 10, 0, 11]
    ∧ onData ⟨some false, some 1, some 3, 9, true⟩
        [1, 3, 4, 0, 10, 0, 11, 155, 246]
        = (⟨some false, none, none, 9, false⟩,
           Outcome.ok (.regs [10, 11] [0, 10, 0, 11]),
           [1, 3, 4, 0, 10, 0, 11, 155, 246]) := by
  refine ⟨by decide, by decide, by decide, by decide, by decide, by decide⟩

theorem dispatch_ne_errCrc (code : Nat) (data : List Nat) (hn : Bool) :
    dispatch code data hn ≠ Outcome.errCrc := by
  rw [dispatch]
  split_ifs <;> simp

theorem LRC_append_shape (buf : List Nat) (L : Nat) (h : buf.length = L + 1) :
    ((LRC buf L).1).length = L + 1
    ∧ readUInt8 (LRC buf L).1 L = lrcCore ((LRC buf L).1.take L) := by
  constructor
  · rw [LRC, writeUInt8]
    simp [h]
  · have ht : (LRC buf L).1.take L = buf.take L := by
      rw [LRC, writeUInt8]
      exact take_set_of_le _ _ _ _ (le_refl L)
    rw [ht, LRC, writeUInt8, readUInt8, jsIndex, Nat.mod_eq_of_lt (lrcCore_lt _)]
    exact getD_set_self _ _ _ _ (by omega)

/-- C10.  `_ascii` is never initialised by the constructor and never
assigned by any engine method, so on every instance both strict
comparisons `this._ascii === false` and `this._ascii === true` are
false; consequently every encode path appends the single LRC byte
(never a CRC16), and the data handler's CRC branch is unreachable —
every candidate that passes the length and identity checks is validated
against its trailing LRC byte. -/
theorem ascii_field_never_assigned :
    initialState.ascii = none
    ∧ (∀ st a d l hn c, (writeFC2 st a d l hn c).1.ascii = st.ascii)
    ∧ (∀ st a d l hn c, (writeFC4 st a d l hn c).1.ascii = st.ascii)
    ∧ (∀ st a d s hn, (writeFC5 st a d s hn).1.ascii = st.ascii)
    ∧ (∀ st a d v hn, (writeFC6 st a d v hn).1.ascii = st.ascii)
    ∧ (∀ st a d arr hn, (writeFC16 st a d arr hn).1.ascii = st.ascii)
    ∧ (∀ st data, (onData st data).1.ascii = st.ascii)
    ∧ strictEqFalse none = false
    ∧ strictEqTrue none = false
    ∧ (∀ st a d l hn c, st.ascii = none →
        (writeFC2 st a d l hn c).2
          = requestCore a (if c = 0 then 2 else c) d l
              ++ [lrcCore (requestCore a (if c = 0 then 2 else c) d l)])
    ∧ (∀ st a d l hn c, st.ascii = none →
        (writeFC4 st a d l hn c).2
          = requestCore a (if c = 0 then 4 else c) d l
              ++ [lrcCore (requestCore a (if c = 0 then 4 else c) d l)])
    ∧ (∀ st a d hn, st.ascii = none →
        (writeFC5 st a d true hn).2
            = requestCore a 5 d 0xff00 ++ [lrcCore (requestCore a 5 d 0xff00)]
        ∧ (writeFC5 st a d false hn).2
            = requestCore a 5 d 0 ++ [lrcCore (requestCore a 5 d 0)])
    ∧ (∀ st a d v hn, st.ascii = none →
        (writeFC6 st a d v hn).2 = requestCore a 6 d v ++ [lrcCore (requestCore a 6 d v)])
    ∧ (∀ st a d arr hn, st.ascii = none →
        ((writeFC16 st a d arr hn).2).length = 7 + 2 * arr.length + 1
        ∧ readUInt8 (writeFC16 st a d arr hn).2 (7 + 2 * arr.length)
            = lrcCore ((writeFC16 st a d arr hn).2.take (7 + 2 * arr.length)))
    ∧ (∀ st data, st.ascii = none → (onData st data).2.1 ≠ Outcome.errCrc)
    ∧ (∀ st data, st.ascii = none → data.length = st.nextLength →
        some (readUInt8 data 0) = st.nextAddress →
        some (readUInt8 data 1) = st.nextCode →
        st.hasNext = true →
        readUInt8 data (data.length - 1) ≠ lrcCore (data.take (data.length - 1)) →
        (onData st data).2.1 = Outcome.errLrc) := by
  refine ⟨rfl, fun _ _ _ _ _ _ => rfl, fun _ _ _ _ _ _ => rfl, fun _ _ _ _ _ => rfl,
    fun _ _ _ _ _ => rfl, fun _ _ _ _ _ => rfl, ?_, rfl, rfl, ?_, ?_, ?_, ?_, ?_, ?_, ?_⟩
  · intro st data
    simp only [onData]
    split_ifs <;> rfl
  · rintro ⟨asc, na, nc, nl, hx⟩ a d l hn c h
    cases h
    show requestCore a (if c = 0 then 2 else c) d l
        ++ [lrcCore (requestCore a (if c = 0 then 2 else c) d l) % 256]
      = requestCore a (if c = 0 then 2 else c) d l
        ++ [lrcCore (requestCore a (if c = 0 then 2 else c) d l)]
    rw [Nat.mod_eq_of_lt (lrcCore_lt _)]
  · rintro ⟨asc, na, nc, nl, hx⟩ a d l hn c h
    cases h
    show requestCore a (if c = 0 then 4 else c) d l
        ++ [lrcCore (requestCore a (if c = 0 then 4 else c) d l) % 256]
      = requestCore a (if c = 0 then 4 else c) d l
        ++ [lrcCore (requestCore a (if c = 0 then 4 else c) d l)]
    rw [Nat.mod_eq_of_lt (lrcCore_lt _)]
  · rintro ⟨asc, na, nc, nl, hx⟩ a d hn h
    cases h
    constructor
    · show requestCore a 5 d 0xff00 ++ [lrcCore (requestCore a 5 d 0xff00) % 256]
        = requestCore a 5 d 0xff00 ++ [lrcCore (requestCore a 5 d 0xff00)]
      rw [Nat.mod_eq_of_lt (lrcCore_lt _)]
    · show requestCore a 5 d 0 ++ [lrcCore (requestCore a 5 d 0) % 256]
        = requestCore a 5 d 0 ++ [lrcCore (requestCore a 5 d 0)]
      rw [Nat.mod_eq_of_lt (lrcCore_lt _)]
  · rintro ⟨asc, na, nc, nl, hx⟩ a d v hn h
    cases h
    show requestCore a 6 d v ++ [lrcCore (requestCore a 6 d v) % 256]
      = requestCore a 6 d v ++ [lrcCore (requestCore a 6 d v)]
    rw [Nat.mod_eq_of_lt (lrcCore_lt _)]
  · rintro ⟨asc, na, nc, nl, hx⟩ a d arr hn h
    cases h
    have hf : strictEqFalse (none : Option Bool) = false := rfl
    constructor
    · exact (LRC_append_shape _ _
        (by simp [length_writeRegsFrom, writeUInt8, writeUInt16BE, hf])).1
    · exact (LRC_append_shape _ _
        (by simp [length_writeRegsFrom, writeUInt8, writeUInt16BE, hf])).2
  · rintro ⟨asc, na, nc, nl, hx⟩ data h
    cases h
    simp only [onData]
    rw [if_neg (show ¬ strictEqFalse (none : Option Bool) = true from by decide)]
    split_ifs <;> first | exact dispatch_ne_errCrc _ _ _ | simp
  · rintro ⟨asc, na, nc, nl, hx⟩ data h hlen haddr hcode hhn hmis
    cases h
    cases hhn
    simp only [onData]
    rw [if_neg (show ¬ data.length ≠ nl from by
      simp only [ModbusState.nextLength] at hlen
      omega)]
    rw [if_neg (show ¬ (some (readUInt8 data 0) ≠ na ∨ some (readUInt8 data 1) ≠ nc) from by
      push_neg
      exact ⟨haddr, hcode⟩)]
    rw [if_neg (show ¬ strictEqFalse none = true from by decide)]
    rw [if_pos (show readUInt8 data (data.length - 1)
        ≠ (LRC data (data.length - 1)).2 from hmis)]
    simp

/-- C10 (witness): with the constructor's state (`_ascii` undefined) the
FC 2 encode path emits core-plus-LRC, and the handler reports an LRC
error (not a CRC error) for a candidate whose trailing byte is wrong. -/
theorem ascii_field_never_assigned_witness :
    (writeFC2 initialState 1 0 1 true 2).2
        = requestCore 1 2 0 1 ++ [lrcCore (requestCore 1 2 0 1)]
    ∧ (onData ⟨none, some 1, some 1, 5, true⟩ [1, 1, 1, 0, 7]).2.1 = Outcome.errLrc := by
  obtain ⟨h1, h2, h3, h4, h5, h6, h7, h8, h9, h10, h11, h12, h13, h14, h15, h16⟩ :=
    ascii_field_never_assigned
  refine ⟨h10 initialState 1 0 1 true 2 rfl, ?_⟩
  exact h16 ⟨none, some 1, some 1, 5, true⟩ [1, 1, 1, 0, 7] rfl (by decide) (by decide)
    (by decide) rfl (by decide)

end Modbus
